import Mathlib

/-!
Verification of the Particle-ecosystem simulation engine.

This file is a shallow embedding of the simulator core found in the
repository (the feature-complete variant in `src/unnamed/part_001`, whose
per-tick behaviour the specification follows; the spontaneous block
generation step, present only in `src/src/Ecosim.jsx`, is embedded from
that file).  Numeric values are modelled as exact rationals, the shared
`Math.random()` source is modelled by explicit oracle functions supplying
the drawn values, and the numeric square root (used only for distances and
speed norms, never by any verified property) is passed as an explicit
function parameter so that every theorem holds for every interpretation of
it.  Distance comparisons `sqrt(dx^2+dy^2) < r` against a nonnegative
radius `r` are embedded as the equivalent `dx^2+dy^2 < r^2`.
-/

/-- The building block catalog (`BLOCKS` in the source). -/
inductive BlockType where
  | NUTRIENT
  | CARBON
  | PROTEIN
  | MEAT_EATER
  | VEGETATION_EATER
  | MOVEMENT
  | SENSOR
  | VISION
  | AIR_BREATHER
  | WATER_BREATHER
  | OXYGEN_PRODUCER
  | CO2_PRODUCER
deriving DecidableEq, Repr

open BlockType

/-- `Object.keys(BLOCKS)` in source order. -/
def allBlockTypes : List BlockType :=
  [NUTRIENT, CARBON, PROTEIN, MEAT_EATER, VEGETATION_EATER, MOVEMENT,
   SENSOR, VISION, AIR_BREATHER, WATER_BREATHER, OXYGEN_PRODUCER, CO2_PRODUCER]

/-- The static compatibility chart `BLOCK_COMPATIBILITY`: the list of
allowed partners of each block type.  The last eight entries are written
in the source as `Object.keys(BLOCKS).filter(k => k !== SELF)`. -/
def blockCompatibility : BlockType → List BlockType
  | AIR_BREATHER =>
      [NUTRIENT, CARBON, PROTEIN, MEAT_EATER, VEGETATION_EATER, MOVEMENT,
       SENSOR, VISION, OXYGEN_PRODUCER, CO2_PRODUCER]
  | WATER_BREATHER =>
      [NUTRIENT, CARBON, PROTEIN, MEAT_EATER, VEGETATION_EATER, MOVEMENT,
       SENSOR, VISION, OXYGEN_PRODUCER, CO2_PRODUCER]
  | MEAT_EATER =>
      [NUTRIENT, CARBON, PROTEIN, VEGETATION_EATER, MOVEMENT, SENSOR,
       VISION, AIR_BREATHER, WATER_BREATHER, OXYGEN_PRODUCER, CO2_PRODUCER]
  | VEGETATION_EATER =>
      [NUTRIENT, CARBON, PROTEIN, MEAT_EATER, MOVEMENT, SENSOR, VISION,
       AIR_BREATHER, WATER_BREATHER, OXYGEN_PRODUCER, CO2_PRODUCER]
  | t => allBlockTypes.filter (fun u => u ≠ t)

/-- The gases of the field. -/
inductive Gas where
  | OXYGEN
  | CO2
deriving DecidableEq, Repr

/-- The organism species of the recipe table `ENTITY_RECIPES`. -/
inductive EntityType where
  | SLIME_MOLD
  | ALGAE
  | BACTERIA
  | PROTOZOA
  | PREDATOR
deriving DecidableEq, Repr

open EntityType

/-- A recipe / archetype entry of `ENTITY_RECIPES` (behavioural fields;
the cosmetic colour, membrane shape and smoothness are owned by the
rendering collaborator and not modelled). -/
structure Recipe where
  requires : List (BlockType × Nat)
  size : ℚ
  speed : ℚ
  metabolism : ℚ
  starvationTime : ℚ
  produces : Gas
  consumes : Gas
  preyOn : List EntityType
deriving DecidableEq, Repr

/-- The static recipe table `ENTITY_RECIPES`. -/
def recipeOf : EntityType → Recipe
  | SLIME_MOLD =>
      { requires := [(NUTRIENT, 3), (CARBON, 2), (VEGETATION_EATER, 1)]
        size := 3, speed := 3/20, metabolism := 1/50, starvationTime := 300
        produces := Gas.OXYGEN, consumes := Gas.CO2, preyOn := [] }
  | ALGAE =>
      { requires := [(NUTRIENT, 2), (CARBON, 2), (OXYGEN_PRODUCER, 1), (WATER_BREATHER, 1)]
        size := 2, speed := 1/20, metabolism := 3/200, starvationTime := 400
        produces := Gas.OXYGEN, consumes := Gas.CO2, preyOn := [] }
  | BACTERIA =>
      { requires := [(NUTRIENT, 2), (PROTEIN, 1), (MEAT_EATER, 1), (MOVEMENT, 1)]
        size := 2, speed := 3/10, metabolism := 1/25, starvationTime := 200
        produces := Gas.CO2, consumes := Gas.OXYGEN, preyOn := [SLIME_MOLD] }
  | PROTOZOA =>
      { requires := [(NUTRIENT, 3), (PROTEIN, 2), (CARBON, 1), (SENSOR, 1), (MOVEMENT, 1)]
        size := 3, speed := 1/4, metabolism := 1/20, starvationTime := 250
        produces := Gas.CO2, consumes := Gas.OXYGEN, preyOn := [BACTERIA, ALGAE] }
  | PREDATOR =>
      { requires := [(PROTEIN, 3), (CARBON, 2), (MEAT_EATER, 2), (VISION, 1), (MOVEMENT, 1)]
        size := 4, speed := 2/5, metabolism := 2/25, starvationTime := 180
        produces := Gas.CO2, consumes := Gas.OXYGEN, preyOn := [PROTOZOA, BACTERIA] }

/-- Iteration order of `Object.entries(ENTITY_RECIPES)`. -/
def entityRecipeOrder : List EntityType :=
  [SLIME_MOLD, ALGAE, BACTERIA, PROTOZOA, PREDATOR]

/-! ## Gas field -/

/-- A gas cell `{oxygen, co2}`. -/
structure GasCell where
  oxygen : ℚ
  co2 : ℚ
deriving DecidableEq, Repr

/-- The gas grid: `rows × cols` cells indexed by `(row, col)`.  The source
holds an array of arrays mutated in place; we model the storage as a
function from positions so that the in-place sweep is a sequence of
point updates. -/
structure GasGrid where
  rows : Nat
  cols : Nat
  cell : Nat × Nat → GasCell

/-- Point update of the grid storage (one in-place cell write). -/
def setCell (g : GasGrid) (p : Nat × Nat) (c : GasCell) : GasGrid :=
  { g with cell := fun q => if q = p then c else g.cell q }

/-- `Math.min`, written out so that it evaluates by kernel reduction. -/
def qmin (a b : ℚ) : ℚ := if a ≤ b then a else b

/-- `Math.max`, written out so that it evaluates by kernel reduction. -/
def qmax (a b : ℚ) : ℚ := if a ≤ b then b else a

lemma qmin_eq_min (a b : ℚ) : qmin a b = min a b := (min_def a b).symm

lemma qmax_eq_max (a b : ℚ) : qmax a b = max a b := (max_def a b).symm

/-- The clamp `Math.max(0, Math.min(100, v))` applied after relaxation. -/
def clampGas (v : ℚ) : ℚ := qmax 0 (qmin 100 v)

/-- The eight Moore-neighborhood offsets `(dy, dx)`, in the order of the
source's nested `dy`/`dx` loops (skipping `(0,0)`). -/
def neighborOffsets : List (Int × Int) :=
  [(-1, -1), (-1, 0), (-1, 1), (0, -1), (0, 1), (1, -1), (1, 0), (1, 1)]

/-- Values of the in-bounds Moore neighbors of `(y, x)` (cells outside the
grid bounds are excluded; no wraparound). -/
def neighborVals (g : GasGrid) (y x : Nat) : List GasCell :=
  neighborOffsets.filterMap fun d =>
    let ny : Int := (y : Int) + d.1
    let nx : Int := (x : Int) + d.2
    if 0 ≤ ny ∧ ny < (g.rows : Int) ∧ 0 ≤ nx ∧ nx < (g.cols : Int) then
      some (g.cell (ny.toNat, nx.toNat))
    else none

/-- The new value of one cell: blend with the neighbor average using
retention weight `0.95` and influence weight `0.05` (skipped when there
are no in-bounds neighbors), relax `0.1%` toward the baseline `50`, then
clamp to `[0, 100]`. -/
def diffusedCell (g : GasGrid) (y x : Nat) : GasCell :=
  let ns := neighborVals g y x
  let c := g.cell (y, x)
  let n : ℚ := ns.length
  let ox := if 0 < ns.length then
      c.oxygen * (95/100) + ((ns.map GasCell.oxygen).sum / n) * (5/100)
    else c.oxygen
  let cz := if 0 < ns.length then
      c.co2 * (95/100) + ((ns.map GasCell.co2).sum / n) * (5/100)
    else c.co2
  { oxygen := clampGas (ox + (50 - ox) * (1/1000))
    co2 := clampGas (cz + (50 - cz) * (1/1000)) }

/-- One in-place update of the cell at `p`, reading the current buffer. -/
def diffuseStep (g : GasGrid) (p : Nat × Nat) : GasGrid :=
  setCell g p (diffusedCell g p.1 p.2)

/-- The positions of one grid row, in column order. -/
def rowIdx (y cols : Nat) : List (Nat × Nat) :=
  (List.range cols).map fun x => (y, x)

/-- All grid positions in the row-major order of the source's sweep. -/
def rowMajor : Nat → Nat → List (Nat × Nat)
  | 0, _ => []
  | rows + 1, cols => rowMajor rows cols ++ rowIdx rows cols

/-- The implemented diffusion: a single-buffer, cell-by-cell, row-major
in-place sweep (each cell's neighbor lookups see the already-updated
values of earlier cells). -/
def diffuse (g : GasGrid) : GasGrid :=
  (rowMajor g.rows g.cols).foldl diffuseStep g

/-- Modelled from the spec: the reference double-buffered diffusion (read
old grid, write new grid), used only to compare against the implemented
in-place sweep. -/
def diffuseBuffered (g : GasGrid) : GasGrid :=
  { g with cell := fun p =>
      if p.1 < g.rows ∧ p.2 < g.cols then diffusedCell g p.1 p.2 else g.cell p }

/-! ## Gas field lemmas -/

/-- The clamped output of a cell update is within the gas bounds. -/
def cellInBounds (c : GasCell) : Prop :=
  0 ≤ c.oxygen ∧ c.oxygen ≤ 100 ∧ 0 ≤ c.co2 ∧ c.co2 ≤ 100

instance (c : GasCell) : Decidable (cellInBounds c) := by
  unfold cellInBounds; infer_instance

lemma clampGas_nonneg (v : ℚ) : 0 ≤ clampGas v := by
  rw [clampGas, qmax_eq_max]; exact le_max_left 0 _

lemma clampGas_le_100 (v : ℚ) : clampGas v ≤ 100 := by
  rw [clampGas, qmax_eq_max, qmin_eq_min]
  exact max_le (by norm_num) (min_le_left _ _)

lemma diffusedCell_inBounds (g : GasGrid) (y x : Nat) :
    cellInBounds (diffusedCell g y x) := by
  unfold diffusedCell cellInBounds
  exact ⟨clampGas_nonneg _, clampGas_le_100 _, clampGas_nonneg _, clampGas_le_100 _⟩

lemma setCell_rows (g : GasGrid) (p : Nat × Nat) (c : GasCell) :
    (setCell g p c).rows = g.rows := rfl

lemma setCell_cols (g : GasGrid) (p : Nat × Nat) (c : GasCell) :
    (setCell g p c).cols = g.cols := rfl

lemma setCell_cell_ne (g : GasGrid) (p q : Nat × Nat) (c : GasCell) (h : q ≠ p) :
    (setCell g p c).cell q = g.cell q := by
  simp [setCell, h]

lemma setCell_cell_eq (g : GasGrid) (p : Nat × Nat) (c : GasCell) :
    (setCell g p c).cell p = c := by
  simp [setCell]

/-- Positions not in the sweep list keep their pre-sweep value. -/
lemma sweep_preserve (ps : List (Nat × Nat)) (g : GasGrid) (p : Nat × Nat)
    (h : p ∉ ps) : ((ps.foldl diffuseStep g).cell p) = g.cell p := by
  induction ps generalizing g with
  | nil => rfl
  | cons q rest ih =>
      have hq : p ≠ q := fun hpq => h (hpq ▸ List.mem_cons_self q rest)
      have hrest : p ∉ rest := fun hr => h (List.mem_cons_of_mem q hr)
      simp only [List.foldl_cons]
      rw [ih _ hrest]
      exact setCell_cell_ne _ _ _ _ hq

/-- Every position written by the sweep ends within the gas bounds. -/
lemma sweep_mem_inBounds (ps : List (Nat × Nat)) (g : GasGrid) (p : Nat × Nat)
    (h : p ∈ ps) : cellInBounds ((ps.foldl diffuseStep g).cell p) := by
  induction ps generalizing g with
  | nil => cases h
  | cons q rest ih =>
      simp only [List.foldl_cons]
      by_cases hpr : p ∈ rest
      · exact ih _ hpr
      · have hpq : p = q := by
          rcases List.mem_cons.mp h with h1 | h2
          · exact h1
          · exact absurd h2 hpr
        subst hpq
        rw [sweep_preserve rest _ p hpr]
        rw [show diffuseStep g p = setCell g p (diffusedCell g p.1 p.2) from rfl]
        rw [setCell_cell_eq]
        exact diffusedCell_inBounds _ _ _

lemma mem_rowIdx {y cols : Nat} {p : Nat × Nat} :
    p ∈ rowIdx y cols ↔ p.1 = y ∧ p.2 < cols := by
  constructor
  · intro h
    rcases List.mem_map.mp h with ⟨x, hx, rfl⟩
    exact ⟨rfl, List.mem_range.mp hx⟩
  · intro ⟨h1, h2⟩
    exact List.mem_map.mpr ⟨p.2, List.mem_range.mpr h2, by cases p; simp_all⟩

lemma mem_rowMajor {rows cols : Nat} {p : Nat × Nat} :
    p ∈ rowMajor rows cols ↔ p.1 < rows ∧ p.2 < cols := by
  induction rows with
  | zero => simp [rowMajor]
  | succ n ih =>
      simp only [rowMajor, List.mem_append, ih, mem_rowIdx]
      constructor
      · rintro (⟨h1, h2⟩ | ⟨h1, h2⟩)
        · exact ⟨Nat.lt_succ_of_lt h1, h2⟩
        · exact ⟨h1 ▸ Nat.lt_succ_self n, h2⟩
      · rintro ⟨h1, h2⟩
        rcases Nat.lt_succ_iff_lt_or_eq.mp h1 with h | h
        · exact Or.inl ⟨h, h2⟩
        · exact Or.inr ⟨h, h2⟩

/-- C7: for every input grid, with arbitrary (possibly out-of-range)
pre-diffusion cell values, every cell of the grid produced by `diffuse`
has its oxygen and co2 in `[0, 100]`. -/
theorem diffuse_bounds (g : GasGrid) (p : Nat × Nat)
    (h1 : p.1 < g.rows) (h2 : p.2 < g.cols) :
    cellInBounds ((diffuse g).cell p) :=
  sweep_mem_inBounds _ g p (mem_rowMajor.mpr ⟨h1, h2⟩)

/-- Witness for C7 at a concrete out-of-range input grid. -/
def witnessGrid : GasGrid :=
  { rows := 1, cols := 2
    cell := fun p => if p = (0, 1) then { oxygen := 150, co2 := -30 } else { oxygen := 0, co2 := 50 } }

theorem diffuse_bounds_instance :
    (0 : Nat) < witnessGrid.rows ∧ (1 : Nat) < witnessGrid.cols ∧
      cellInBounds ((diffuse witnessGrid).cell (0, 1)) :=
  ⟨by decide, by decide, diffuse_bounds witnessGrid (0, 1) (by decide) (by decide)⟩

/-! ## C6: in-place sweep vs double-buffered reference -/

/-- A 1×2 grid whose two cells differ, to separate the two sweeps. -/
def unevenGrid : GasGrid :=
  { rows := 1, cols := 2
    cell := fun p => if p = (0, 1) then { oxygen := 100, co2 := 50 } else { oxygen := 0, co2 := 50 } }

/-- C6 counterexample: the implemented cell-by-cell sweep does not equal
the reference double-buffered diffusion on every input grid — on a 1×2
grid with oxygen 0 and 100, cell `(0,1)` reads its neighbor's
already-updated value in the in-place sweep but the pre-diffusion value
in the buffered one, and the results differ. -/
theorem diffuse_neq_buffered_example :
    (diffuse unevenGrid).cell (0, 1) ≠ (diffuseBuffered unevenGrid).cell (0, 1) := by
  have h1 : diffusedCell unevenGrid 0 0 = { oxygen := 1009/200, co2 := 50 } := by
    have hnv : neighborVals unevenGrid 0 0 = [{ oxygen := 100, co2 := 50 }] := by
      norm_num [neighborVals, neighborOffsets, unevenGrid, List.filterMap_cons,
        Prod.mk.injEq, -Prod.mk_zero_zero]
    simp only [diffusedCell, hnv]
    norm_num [unevenGrid, clampGas, qmin, qmax, Prod.mk.injEq, -Prod.mk_zero_zero]
  have hg1 : diffuseStep unevenGrid (0, 0) =
      setCell unevenGrid (0, 0) { oxygen := 1009/200, co2 := 50 } := by
    show setCell unevenGrid (0, 0) (diffusedCell unevenGrid 0 0) = _
    rw [h1]
  have hnv2 : neighborVals (setCell unevenGrid (0, 0) { oxygen := 1009/200, co2 := 50 }) 0 1 =
      [{ oxygen := 1009/200, co2 := 50 }] := by
    norm_num [neighborVals, neighborOffsets, setCell, unevenGrid, List.filterMap_cons,
      Prod.mk.injEq, -Prod.mk_zero_zero]
  have h3 : diffusedCell (setCell unevenGrid (0, 0) { oxygen := 1009/200, co2 := 50 }) 0 1 =
      { oxygen := 380827991/4000000, co2 := 50 } := by
    simp only [diffusedCell, hnv2]
    norm_num [setCell, unevenGrid, clampGas, qmin, qmax, Prod.mk.injEq, -Prod.mk_zero_zero]
  have hLHS : (diffuse unevenGrid).cell (0, 1) = { oxygen := 380827991/4000000, co2 := 50 } := by
    have hrm : rowMajor unevenGrid.rows unevenGrid.cols = [(0, 0), (0, 1)] := by
      norm_num [rowMajor, rowIdx, unevenGrid, List.range_succ]
    rw [diffuse, hrm]
    simp only [List.foldl_cons, List.foldl_nil, hg1]
    show (setCell _ (0, 1) (diffusedCell (setCell unevenGrid (0, 0) { oxygen := 1009/200, co2 := 50 }) 0 1)).cell (0, 1) = _
    rw [h3, setCell_cell_eq]
  have hRHS : (diffuseBuffered unevenGrid).cell (0, 1) = { oxygen := 18991/200, co2 := 50 } := by
    have hnv : neighborVals unevenGrid 0 1 = [{ oxygen := 0, co2 := 50 }] := by
      norm_num [neighborVals, neighborOffsets, unevenGrid, List.filterMap_cons,
        Prod.mk.injEq, -Prod.mk_zero_zero]
    show diffusedCell unevenGrid 0 1 = _
    simp only [diffusedCell, hnv]
    norm_num [unevenGrid, clampGas, qmin, qmax, Prod.mk.injEq, -Prod.mk_zero_zero]
  rw [hLHS, hRHS]
  simp only [ne_eq, GasCell.mk.injEq, not_and]
  intro h
  norm_num at h

lemma list_sum_const {l : List ℚ} {a : ℚ} (h : ∀ x ∈ l, x = a) :
    l.sum = l.length * a := by
  induction l with
  | nil => simp
  | cons b rest ih =>
      have hb : b = a := h b (List.mem_cons_self b rest)
      have hrest : ∀ x ∈ rest, x = a := fun x hx => h x (List.mem_cons_of_mem b hx)
      simp [hb, ih hrest, add_mul, add_comm]

/-- The baseline cell value. -/
def baselineCell : GasCell := { oxygen := 50, co2 := 50 }

lemma diffusedCell_baseline (g : GasGrid) (h : ∀ p, g.cell p = baselineCell)
    (y x : Nat) : diffusedCell g y x = baselineCell := by
  unfold diffusedCell
  have hns : ∀ c ∈ neighborVals g y x, c = baselineCell := by
    intro c hc
    unfold neighborVals at hc
    rcases List.mem_filterMap.mp hc with ⟨d, _, hd⟩
    simp only at hd
    split at hd
    · cases hd; exact h _
    · cases hd
  have hox : ∀ q ∈ (neighborVals g y x).map GasCell.oxygen, q = (50 : ℚ) := by
    intro q hq
    rcases List.mem_map.mp hq with ⟨c, hc, rfl⟩
    rw [hns c hc]; rfl
  have hcz : ∀ q ∈ (neighborVals g y x).map GasCell.co2, q = (50 : ℚ) := by
    intro q hq
    rcases List.mem_map.mp hq with ⟨c, hc, rfl⟩
    rw [hns c hc]; rfl
  have hsox := list_sum_const hox
  have hscz := list_sum_const hcz
  rw [h (y, x)]
  simp only [List.length_map] at hsox hscz
  by_cases hn : 0 < (neighborVals g y x).length
  · have hne : ((neighborVals g y x).length : ℚ) ≠ 0 := Nat.cast_ne_zero.mpr hn.ne'
    simp only [hn, if_pos, hsox, hscz, baselineCell]
    rw [mul_comm ((neighborVals g y x).length : ℚ) 50]
    rw [mul_div_assoc, div_self hne]
    norm_num [clampGas, qmax, qmin]
  · simp only [hn, if_neg, baselineCell]
    norm_num [clampGas, qmax, qmin]

lemma sweep_baseline (ps : List (Nat × Nat)) (g : GasGrid)
    (h : ∀ p, g.cell p = baselineCell) :
    ∀ p, ((ps.foldl diffuseStep g).cell p) = baselineCell := by
  induction ps generalizing g with
  | nil => exact h
  | cons q rest ih =>
      simp only [List.foldl_cons]
      apply ih
      intro p
      by_cases hpq : p = q
      · subst hpq
        rw [show diffuseStep g p = setCell g p (diffusedCell g p.1 p.2) from rfl,
            setCell_cell_eq]
        exact diffusedCell_baseline g h p.1 p.2
      · rw [show diffuseStep g q = setCell g q (diffusedCell g q.1 q.2) from rfl,
            setCell_cell_ne _ _ _ _ hpq]
        exact h p

/-- C6 amended: on the baseline grid (every cell at the initial value
50/50), the implemented in-place sweep and the reference double-buffered
diffusion produce the same value at every cell; the counterexample above
shows they differ on general grids. -/
theorem diffuse_eq_buffered_on_baseline (g : GasGrid)
    (h : ∀ p, g.cell p = baselineCell) (p : Nat × Nat) :
    (diffuse g).cell p = (diffuseBuffered g).cell p := by
  rw [show diffuse g = (rowMajor g.rows g.cols).foldl diffuseStep g from rfl]
  rw [sweep_baseline _ g h p]
  unfold diffuseBuffered
  by_cases hp : p.1 < g.rows ∧ p.2 < g.cols
  · simp only [hp, if_pos]
    exact (diffusedCell_baseline g h p.1 p.2).symm
  · simp only [hp, if_neg, not_false_iff]
    exact (h p).symm

/-- A concrete baseline grid for the C6 witness. -/
def baselineGrid : GasGrid :=
  { rows := 2, cols := 2, cell := fun _ => baselineCell }

theorem diffuse_eq_buffered_on_baseline_instance :
    (diffuse baselineGrid).cell (0, 1) = (diffuseBuffered baselineGrid).cell (0, 1) :=
  diffuse_eq_buffered_on_baseline baselineGrid (fun _ => rfl) (0, 1)

/-! ## Building blocks, organisms and the formation engine -/

/-- A free building block of the pool. -/
structure Block where
  x : ℚ
  y : ℚ
  vx : ℚ
  vy : ℚ
  btype : BlockType
  free : Bool
  age : Nat
deriving DecidableEq, Repr

/-- A living organism (`entity` in the source); `cellBlocks` is its
composition as per-type counts, copied from the recipe at formation. -/
structure Entity where
  id : ℚ
  etype : EntityType
  x : ℚ
  y : ℚ
  vx : ℚ
  vy : ℚ
  energy : ℚ
  age : Nat
  timeSinceFed : Nat
  hibernating : Bool
  starvationResistance : ℚ
  metabolismRate : ℚ
  cellBlocks : List (BlockType × Nat)
deriving DecidableEq, Repr

/-- Number of free blocks in the pool (`blocks.filter(b => b.free).length`). -/
def freeCount (blocks : List Block) : Nat :=
  (blocks.filter fun b => b.free).length

/-- Total count of a composition (the block budget of an organism). -/
def compSum (comp : List (BlockType × Nat)) : Nat :=
  (comp.map Prod.snd).sum

/-- The test `dist(b, seed) < range` of the neighborhood scan, embedded
without the square root as `dx*dx + dy*dy < range*range`. -/
def nearBlock (b seed : Block) (range : ℚ) : Bool :=
  decide ((b.x - seed.x) * (b.x - seed.x) + (b.y - seed.y) * (b.y - seed.y) < range * range)

/-- Indices of the free blocks within the formation radius 30 of the seed
(the source's scan building `nearby`/`indices`); `seed?` is `none` when
the pool is empty and the seed lookup yields `undefined`, in which case
the scan body never runs. -/
def nearbyIndices (blocks : List Block) (seed? : Option Block) : List Nat :=
  match seed? with
  | none => []
  | some seed =>
      (List.range blocks.length).filter fun i =>
        match blocks.get? i with
        | some b => b.free && nearBlock b seed 30
        | none => false

/-- Does the block at index `i` have type `t`? -/
def typeIs (blocks : List Block) (i : Nat) (t : BlockType) : Bool :=
  match blocks.get? i with
  | some b => decide (b.btype = t)
  | none => false

/-- The per-type tally `available` of the neighborhood. -/
def availableCount (blocks : List Block) (idxs : List Nat) (t : BlockType) : Nat :=
  (idxs.filter fun i => typeIs blocks i t).length

/-- Per-type selection: scanning the neighborhood indices in reverse
order, keep the first `amt` indices holding type `t` (the source's
`found < amount` reverse loop). -/
def selectFor (blocks : List Block) (idxs : List Nat) (t : BlockType) (amt : Nat) : List Nat :=
  ((idxs.reverse).filter fun i => typeIs blocks i t).take amt

/-- Indices selected for the whole recipe, in `requires` order
(the source's `toRemove`). -/
def selectAll (blocks : List Block) (idxs : List Nat) : List (BlockType × Nat) → List Nat
  | [] => []
  | ta :: rest => selectFor blocks idxs ta.1 ta.2 ++ selectAll blocks idxs rest

/-- Remove the blocks at the given indices.  The source sorts the indices
descending and splices them out one by one; on distinct indices that is
exactly removal of the blocks at those positions. -/
def removeIndices (blocks : List Block) (rm : List Nat) : List Block :=
  (((List.range blocks.length).filter fun i => !(decide (i ∈ rm))).filterMap
    fun i => blocks.get? i)

/-- Pairwise compatibility (`areBlocksCompatible`): for every pair
`i < j` the source checks `BLOCK_COMPATIBILITY[type1]?.includes(type2)`. -/
def areBlocksCompatible : List BlockType → Bool
  | [] => true
  | t :: rest =>
      (rest.all fun u => decide (u ∈ blockCompatibility t)) && areBlocksCompatible rest

/-- The `Math.random()` draws consumed by one `tryFormEntity` call:
per-archetype attempt gate and seed index, and the id / initial-velocity
draws of the constructed organism. -/
structure FormOracle where
  gateRand : Nat → ℚ
  seedRand : Nat → ℚ
  idRand : Nat → ℚ
  vRand : Nat → ℚ

/-- Position of the block at index `i` (used for the spawn centroid). -/
def xAt (blocks : List Block) (i : Nat) : ℚ :=
  match blocks.get? i with
  | some b => b.x
  | none => 0

def yAt (blocks : List Block) (i : Nat) : ℚ :=
  match blocks.get? i with
  | some b => b.y
  | none => 0

/-- The organism constructed on a successful formation: centroid spawn
position, energy 100, age/timeSinceFed 0, not hibernating, archetype base
starvation and metabolism, composition copied from the recipe. -/
def mkEntity (o : FormOracle) (k : Nat) (et : EntityType) (r : Recipe)
    (blocks : List Block) (toRemove : List Nat) : Entity :=
  let count : ℚ := toRemove.length
  { id := o.idRand k
    etype := et
    x := (toRemove.map fun i => xAt blocks i).sum / count
    y := (toRemove.map fun i => yAt blocks i).sum / count
    vx := (o.vRand (2 * k) - 1/2) * (3/10)
    vy := (o.vRand (2 * k + 1) - 1/2) * (3/10)
    energy := 100
    age := 0
    timeSinceFed := 0
    hibernating := false
    starvationResistance := r.starvationTime
    metabolismRate := r.metabolism
    cellBlocks := r.requires }

/-- The neighborhood of one formation attempt: the free blocks within the
formation radius of the randomly chosen seed block
(`startIdx = Math.floor(Math.random() * blocks.length)`). -/
def formSeedIdxs (o : FormOracle) (k : Nat) (blocks : List Block) : List Nat :=
  nearbyIndices blocks (blocks.get? (⌊o.seedRand k * (blocks.length : ℚ)⌋.toNat))

/-- One archetype's formation attempt: the per-type count check
(`canForm`), the compatibility check, and on success the selection,
removal and organism construction.  `none` means the attempt failed and
the next archetype is tried; `some res` means `tryFormEntity` returns
`res` at once (covering the source's early `return null` when no block
was selected). -/
def formAttempt (o : FormOracle) (k : Nat) (et : EntityType) (blocks : List Block) :
    Option (Option Entity × List Block) :=
  let r := recipeOf et
  let idxs := formSeedIdxs o k blocks
  if (r.requires.all fun ta => decide (ta.2 ≤ availableCount blocks idxs ta.1))
      && areBlocksCompatible (r.requires.map Prod.fst) then
    let toRemove := selectAll blocks idxs r.requires
    if toRemove.length = 0 then some (none, blocks)
    else some (some (mkEntity o k et r blocks toRemove), removeIndices blocks toRemove)
  else none

/-- The body of `tryFormEntity`: iterate the recipe table in entry order;
for each archetype, a probability gate (attempt only when the draw is at
most 0.0005), then the attempt itself.  Returns at the first success. -/
def tryFormGo (o : FormOracle) : List EntityType → Nat → List Block → Option Entity × List Block
  | [], _, blocks => (none, blocks)
  | et :: rest, k, blocks =>
      if 1/2000 < o.gateRand k then tryFormGo o rest (k + 1) blocks
      else
        match formAttempt o k et blocks with
        | some res => res
        | none => tryFormGo o rest (k + 1) blocks

/-- `tryFormEntity`: runs once per tick, returns at most one new organism
together with the updated pool. -/
def tryFormEntity (blocks : List Block) (o : FormOracle) : Option Entity × List Block :=
  tryFormGo o entityRecipeOrder 0 blocks

/-! ## C10: formation on an empty pool -/

lemma typeIs_nil (i : Nat) (t : BlockType) : typeIs [] i t = false := rfl

lemma availableCount_nil (idxs : List Nat) (t : BlockType) :
    availableCount [] idxs t = 0 := by
  have h : (fun i => typeIs [] i t) = fun _ : Nat => false := funext fun i => rfl
  simp [availableCount, h]

lemma requires_not_all_le_zero (et : EntityType) :
    ((recipeOf et).requires.all fun ta => decide (ta.2 ≤ 0)) = false := by
  cases et <;> rfl

/-- C10: when the free-block pool is empty, `tryFormEntity` is a total
no-op for every archetype and every draw of the random source: the
neighborhood scan is vacuous, no recipe is satisfiable, no blocks are
removed, and it returns no organism together with the unchanged (empty)
pool. -/
theorem tryFormEntity_empty_noop (o : FormOracle) :
    tryFormEntity [] o = (none, []) := by
  have main : ∀ (ets : List EntityType) (k : Nat), tryFormGo o ets k [] = (none, []) := by
    intro ets
    induction ets with
    | nil => intro k; rfl
    | cons et rest ih =>
        intro k
        have hatt : formAttempt o k et [] = none := by
          simp only [formAttempt, formSeedIdxs, List.length_nil, List.get?_nil,
            nearbyIndices, availableCount_nil, requires_not_all_le_zero, Bool.false_and]
          rfl
        simp only [tryFormGo, hatt]
        by_cases hg : (1 : ℚ)/2000 < o.gateRand k
        · simp [hg, ih]
        · simp [hg, ih]
  exact main entityRecipeOrder 0

/-! ## Formation engine lemmas -/

lemma nearbyIndices_nodup (blocks : List Block) (seed? : Option Block) :
    (nearbyIndices blocks seed?).Nodup := by
  cases seed? with
  | none => exact List.Pairwise.nil
  | some seed => exact (List.nodup_range _).filter _

lemma mem_nearbyIndices {blocks : List Block} {seed : Block} {i : Nat}
    (h : i ∈ nearbyIndices blocks (some seed)) :
    ∃ b, blocks.get? i = some b ∧ b.free = true := by
  rcases List.mem_filter.mp h with ⟨_, hp⟩
  cases hb : blocks.get? i with
  | none => rw [hb] at hp; cases hp
  | some b =>
      rw [hb] at hp
      exact ⟨b, rfl, Bool.and_elim_left hp⟩

lemma typeIs_some {blocks : List Block} {i : Nat} {t : BlockType}
    (h : typeIs blocks i t = true) : ∃ b, blocks.get? i = some b ∧ b.btype = t := by
  unfold typeIs at h
  cases hb : blocks.get? i with
  | none => rw [hb] at h; cases h
  | some b =>
      rw [hb] at h
      exact ⟨b, rfl, of_decide_eq_true h⟩

lemma typeIs_unique {blocks : List Block} {i : Nat} {t u : BlockType}
    (ht : typeIs blocks i t = true) (hu : typeIs blocks i u = true) : t = u := by
  rcases typeIs_some ht with ⟨b, hb, hbt⟩
  rcases typeIs_some hu with ⟨b2, hb2, hbu⟩
  rw [hb] at hb2
  cases hb2
  rw [← hbt, hbu]

lemma selectFor_length {blocks : List Block} {idxs : List Nat} {t : BlockType} {amt : Nat}
    (h : amt ≤ availableCount blocks idxs t) :
    (selectFor blocks idxs t amt).length = amt := by
  unfold selectFor
  rw [List.length_take, List.filter_reverse, List.length_reverse]
  exact Nat.min_eq_left h

lemma mem_selectFor {blocks : List Block} {idxs : List Nat} {t : BlockType} {amt i : Nat}
    (h : i ∈ selectFor blocks idxs t amt) :
    typeIs blocks i t = true ∧ i ∈ idxs := by
  unfold selectFor at h
  have h2 := List.mem_of_mem_take h
  rcases List.mem_filter.mp h2 with ⟨hmem, hp⟩
  exact ⟨hp, List.mem_reverse.mp hmem⟩

lemma selectFor_nodup {blocks : List Block} {idxs : List Nat} {t : BlockType} {amt : Nat}
    (h : idxs.Nodup) : (selectFor blocks idxs t amt).Nodup :=
  ((List.nodup_reverse.mpr h).filter _).sublist (List.take_sublist _ _)

lemma selectAll_length {blocks : List Block} {idxs : List Nat} {reqs : List (BlockType × Nat)}
    (h : ∀ ta ∈ reqs, ta.2 ≤ availableCount blocks idxs ta.1) :
    (selectAll blocks idxs reqs).length = compSum reqs := by
  induction reqs with
  | nil => rfl
  | cons ta rest ih =>
      simp only [selectAll, List.length_append, compSum, List.map_cons, List.sum_cons]
      rw [selectFor_length (h ta (List.mem_cons_self _ _)),
        ih fun x hx => h x (List.mem_cons_of_mem _ hx)]
      rfl

lemma mem_selectAll {blocks : List Block} {idxs : List Nat} {reqs : List (BlockType × Nat)}
    {i : Nat} :
    i ∈ selectAll blocks idxs reqs ↔ ∃ ta ∈ reqs, i ∈ selectFor blocks idxs ta.1 ta.2 := by
  induction reqs with
  | nil => simp [selectAll]
  | cons ta rest ih => simp [selectAll, List.mem_append, ih]

lemma selectAll_nodup {blocks : List Block} {idxs : List Nat} {reqs : List (BlockType × Nat)}
    (hnd : idxs.Nodup) (htypes : (reqs.map Prod.fst).Nodup) :
    (selectAll blocks idxs reqs).Nodup := by
  induction reqs with
  | nil => exact List.Pairwise.nil
  | cons ta rest ih =>
      simp only [List.map_cons, List.nodup_cons] at htypes
      refine (selectFor_nodup hnd).append (ih htypes.2) ?_
      intro i hi1 hi2
      rcases mem_selectFor hi1 with ⟨ht1, _⟩
      rcases mem_selectAll.mp hi2 with ⟨tb, htb, hsel⟩
      rcases mem_selectFor hsel with ⟨ht2, _⟩
      exact htypes.1 ((typeIs_unique ht1 ht2) ▸ List.mem_map_of_mem Prod.fst htb)

/-- Whether the block at index `i` exists and is free. -/
def freeAt (blocks : List Block) (i : Nat) : Bool :=
  match blocks.get? i with
  | some b => b.free
  | none => false

lemma freeCount_eq_range (blocks : List Block) :
    freeCount blocks = ((List.range blocks.length).filter fun i => freeAt blocks i).length := by
  induction blocks with
  | nil => rfl
  | cons b bs ih =>
      have hcomp : ((fun i => freeAt (b :: bs) i) ∘ Nat.succ) = fun i => freeAt bs i :=
        funext fun i => rfl
      rw [List.length_cons, List.range_succ_eq_map, List.filter_cons, List.filter_map, hcomp]
      have h0 : freeAt (b :: bs) 0 = b.free := rfl
      unfold freeCount at ih
      cases hbf : b.free
      · rw [freeCount, List.filter_cons]
        simp [h0, hbf, ih]
      · rw [freeCount, List.filter_cons]
        simp [h0, hbf, ih]

lemma length_filter_split (l : List Nat) (p q : Nat → Bool) :
    (l.filter p).length
      = (l.filter fun a => p a && q a).length + (l.filter fun a => p a && !q a).length := by
  induction l with
  | nil => rfl
  | cons a l ih =>
      simp only [List.filter_cons]
      cases hp : p a <;> cases hq : q a <;> simp [hp, hq, ih] <;> omega

lemma length_filter_mem (l rm : List Nat) (hl : l.Nodup) (hrm : rm.Nodup)
    (hsub : ∀ i ∈ rm, i ∈ l) :
    (l.filter fun i => decide (i ∈ rm)).length = rm.length := by
  induction l generalizing rm with
  | nil =>
      have : rm = [] :=
        List.eq_nil_iff_forall_not_mem.mpr fun i hi => (List.not_mem_nil i) (hsub i hi)
      subst this; rfl
  | cons a l ih =>
      have hal : a ∉ l := (List.nodup_cons.mp hl).1
      have hl2 : l.Nodup := (List.nodup_cons.mp hl).2
      by_cases ha : a ∈ rm
      · have hlen : ((a :: l).filter fun i => decide (i ∈ rm)).length
            = (l.filter fun i => decide (i ∈ rm)).length + 1 := by
          simp [List.filter_cons, ha]
        have hcong : (l.filter fun i => decide (i ∈ rm))
            = l.filter fun i => decide (i ∈ rm.erase a) :=
          List.filter_congr fun i hi => by
            have hia : i ≠ a := fun he => hal (he ▸ hi)
            simp [List.Nodup.mem_erase_iff hrm, hia]
        have hsub2 : ∀ i ∈ rm.erase a, i ∈ l := by
          intro i hi
          have h2 := (List.Nodup.mem_erase_iff hrm).mp hi
          rcases List.mem_cons.mp (hsub i h2.2) with he | hl3
          · exact absurd he h2.1
          · exact hl3
        have hpos : 0 < rm.length := List.length_pos_of_mem ha
        rw [hlen, hcong, ih (rm.erase a) hl2 (hrm.erase a) hsub2,
          List.length_erase_of_mem ha]
        omega
      · have hlen : ((a :: l).filter fun i => decide (i ∈ rm))
            = l.filter fun i => decide (i ∈ rm) := by
          simp [List.filter_cons, ha]
        rw [hlen]
        exact ih rm hl2 hrm fun i hi => by
          rcases List.mem_cons.mp (hsub i hi) with he | h3
          · exact absurd (he ▸ hi) ha
          · exact h3

lemma filterMap_get_filter_free (blocks : List Block) (ks : List Nat) :
    (((ks.filterMap fun i => blocks.get? i).filter fun b => b.free)).length
      = (ks.filter fun i => freeAt blocks i).length := by
  induction ks with
  | nil => rfl
  | cons k ks ih =>
      cases hk : blocks.get? k with
      | none =>
          have hfa : freeAt blocks k = false := by unfold freeAt; rw [hk]
          rw [List.filterMap_cons_none hk, List.filter_cons, hfa,
            if_neg Bool.false_ne_true]
          exact ih
      | some b =>
          have hfa : freeAt blocks k = b.free := by unfold freeAt; rw [hk]
          rw [List.filterMap_cons_some hk, List.filter_cons, List.filter_cons, hfa]
          cases hbf : b.free
          · rw [if_neg Bool.false_ne_true, if_neg Bool.false_ne_true]
            exact ih
          · rw [if_pos rfl, if_pos rfl, List.length_cons, List.length_cons, ih]

lemma freeCount_removeIndices (blocks : List Block) (rm : List Nat)
    (hnd : rm.Nodup) (hfree : ∀ i ∈ rm, freeAt blocks i = true) :
    freeCount blocks = freeCount (removeIndices blocks rm) + rm.length := by
  have hbound : ∀ i ∈ rm, i ∈ List.range blocks.length := by
    intro i hi
    have hf := hfree i hi
    unfold freeAt at hf
    cases hk : blocks.get? i with
    | none => rw [hk] at hf; cases hf
    | some b => exact List.mem_range.mpr (List.get?_eq_some.mp hk).1
  have hrw : freeCount (removeIndices blocks rm)
      = (((List.range blocks.length).filter fun i => !(decide (i ∈ rm))).filter
          fun i => freeAt blocks i).length := by
    rw [freeCount, removeIndices, filterMap_get_filter_free]
  rw [hrw, freeCount_eq_range,
    length_filter_split (List.range blocks.length) (fun i => freeAt blocks i)
      (fun i => decide (i ∈ rm))]
  have hx : ((List.range blocks.length).filter fun i => freeAt blocks i && decide (i ∈ rm))
      = (List.range blocks.length).filter fun i => decide (i ∈ rm) :=
    List.filter_congr fun i _ => by
      by_cases hi : i ∈ rm
      · simp [hi, hfree i hi]
      · simp [hi]
  rw [hx, length_filter_mem (List.range blocks.length) rm (List.nodup_range _) hnd hbound]
  have hz : (((List.range blocks.length).filter fun i => !(decide (i ∈ rm))).filter
        fun i => freeAt blocks i).length
      = ((List.range blocks.length).filter fun i => freeAt blocks i && !(decide (i ∈ rm))).length := by
    rw [List.filter_filter]
  omega

lemma recipe_requires_pos (et : EntityType) :
    ∃ ta ∈ (recipeOf et).requires, 0 < ta.2 := by
  cases et <;> exact ⟨_, List.mem_cons_self _ _, by norm_num⟩

lemma recipe_types_nodup (et : EntityType) :
    ((recipeOf et).requires.map Prod.fst).Nodup := by
  cases et <;> decide

lemma selectAll_free {blocks : List Block} {seed : Block} {reqs : List (BlockType × Nat)} :
    ∀ i ∈ selectAll blocks (nearbyIndices blocks (some seed)) reqs,
      freeAt blocks i = true := by
  intro i hi
  rcases mem_selectAll.mp hi with ⟨ta, _, hsel⟩
  rcases mem_selectFor hsel with ⟨_, hidx⟩
  rcases mem_nearbyIndices hidx with ⟨b, hb, hbf⟩
  unfold freeAt
  rw [hb]
  exact hbf

lemma formAttempt_some_some {o : FormOracle} {k : Nat} {et : EntityType}
    {blocks blocks2 : List Block} {ent : Entity}
    (h : formAttempt o k et blocks = some (some ent, blocks2)) :
    ent = mkEntity o k et (recipeOf et) blocks
        (selectAll blocks (formSeedIdxs o k blocks) (recipeOf et).requires) ∧
    blocks2 = removeIndices blocks
        (selectAll blocks (formSeedIdxs o k blocks) (recipeOf et).requires) ∧
    ((recipeOf et).requires.all fun ta =>
        decide (ta.2 ≤ availableCount blocks (formSeedIdxs o k blocks) ta.1)) = true ∧
    areBlocksCompatible ((recipeOf et).requires.map Prod.fst) = true := by
  simp only [formAttempt] at h
  split at h
  case isTrue hcf =>
    split at h
    case isTrue hz => simp at h
    case isFalse hz =>
      rw [Option.some.injEq, Prod.mk.injEq, Option.some.injEq] at h
      exact ⟨h.1.symm, h.2.symm, Bool.and_elim_left hcf, Bool.and_elim_right hcf⟩
  case isFalse hcf => cases h

lemma formAttempt_counts_seed {o : FormOracle} {k : Nat} {et : EntityType}
    {blocks : List Block}
    (hcounts : ((recipeOf et).requires.all fun ta =>
        decide (ta.2 ≤ availableCount blocks (formSeedIdxs o k blocks) ta.1)) = true) :
    ∃ seed, blocks.get? (⌊o.seedRand k * (blocks.length : ℚ)⌋.toNat) = some seed := by
  cases hs : blocks.get? (⌊o.seedRand k * (blocks.length : ℚ)⌋.toNat) with
  | some s => exact ⟨s, rfl⟩
  | none =>
      exfalso
      rcases recipe_requires_pos et with ⟨ta, hta, hpos⟩
      have h2 := of_decide_eq_true (List.all_eq_true.mp hcounts ta hta)
      rw [formSeedIdxs, hs] at h2
      have h3 : availableCount blocks (nearbyIndices blocks none) ta.1 = 0 := rfl
      omega

/-- Full characterisation of a successful `tryFormGo` run, used by the
formation claims: the new organism's archetype is in the table, its state
fields are the formation constants, its composition is the recipe, a seed
block existed whose free neighborhood satisfied every per-type count, the
required types were pairwise compatible, and exactly the recipe's block
budget left the free pool. -/
lemma tryFormGo_some_spec {o : FormOracle} {ets : List EntityType} {k : Nat}
    {blocks blocks2 : List Block} {ent : Entity}
    (h : tryFormGo o ets k blocks = (some ent, blocks2)) :
    ent.etype ∈ ets ∧ ent.energy = 100 ∧ ent.age = 0 ∧ ent.timeSinceFed = 0 ∧
      ent.hibernating = false ∧ ent.cellBlocks = (recipeOf ent.etype).requires ∧
      (∃ seed ∈ blocks,
        (∀ ta ∈ (recipeOf ent.etype).requires,
          ta.2 ≤ availableCount blocks (nearbyIndices blocks (some seed)) ta.1) ∧
        areBlocksCompatible ((recipeOf ent.etype).requires.map Prod.fst) = true) ∧
      freeCount blocks = freeCount blocks2 + compSum (recipeOf ent.etype).requires := by
  induction ets generalizing k with
  | nil => simp [tryFormGo] at h
  | cons et rest ih =>
      simp only [tryFormGo] at h
      by_cases hg : (1 : ℚ)/2000 < o.gateRand k
      · rw [if_pos hg] at h
        rcases ih h with ⟨h1, h2⟩
        exact ⟨List.mem_cons_of_mem _ h1, h2⟩
      · rw [if_neg hg] at h
        cases hatt : formAttempt o k et blocks with
        | none =>
            rw [hatt] at h
            rcases ih h with ⟨h1, h2⟩
            exact ⟨List.mem_cons_of_mem _ h1, h2⟩
        | some res =>
            rw [hatt] at h
            subst h
            rcases formAttempt_some_some hatt with ⟨hent, hb2, hcounts, hcompat⟩
            rcases formAttempt_counts_seed hcounts with ⟨seed, hseed⟩
            have hidxs : formSeedIdxs o k blocks = nearbyIndices blocks (some seed) := by
              rw [formSeedIdxs, hseed]
            have hcounts2 : ∀ ta ∈ (recipeOf et).requires,
                ta.2 ≤ availableCount blocks (nearbyIndices blocks (some seed)) ta.1 := by
              intro ta hta
              have h4 := of_decide_eq_true (List.all_eq_true.mp hcounts ta hta)
              rwa [hidxs] at h4
            have hnd : (selectAll blocks (nearbyIndices blocks (some seed))
                (recipeOf et).requires).Nodup :=
              selectAll_nodup (nearbyIndices_nodup _ _) (recipe_types_nodup et)
            have hmass := freeCount_removeIndices blocks _ hnd
              (@selectAll_free blocks seed _)
            have hlen := selectAll_length hcounts2
            subst hent
            subst hb2
            refine ⟨List.mem_cons_self et rest, rfl, rfl, rfl, rfl, rfl,
              ⟨seed, List.get?_mem hseed, hcounts2, hcompat⟩, ?_⟩
            show freeCount blocks = freeCount (removeIndices blocks
                (selectAll blocks (formSeedIdxs o k blocks) (recipeOf et).requires))
              + compSum (recipeOf et).requires
            rw [hidxs, ← hlen]
            exact hmass

/-- C2: `tryFormEntity` returns at most one new organism per tick, and
whenever it creates an organism of archetype `A`, at that moment a seed
block existed whose free-block neighborhood within the formation radius
had per-type free-block counts at least `A.requires` for every required
type, and the required block types were pairwise compatible according to
the static compatibility table. -/
theorem tryFormEntity_spec :
    (∀ (blocks : List Block) (o : FormOracle),
      (tryFormEntity blocks o).1.toList.length ≤ 1) ∧
    (∀ (blocks blocks2 : List Block) (o : FormOracle) (ent : Entity),
      tryFormEntity blocks o = (some ent, blocks2) →
      ent.etype ∈ entityRecipeOrder ∧
      ent.cellBlocks = (recipeOf ent.etype).requires ∧
      ∃ seed ∈ blocks,
        (∀ ta ∈ (recipeOf ent.etype).requires,
          ta.2 ≤ availableCount blocks (nearbyIndices blocks (some seed)) ta.1) ∧
        areBlocksCompatible ((recipeOf ent.etype).requires.map Prod.fst) = true) := by
  constructor
  · intro blocks o
    cases (tryFormEntity blocks o).1 <;> simp
  · intro blocks blocks2 o ent h
    rcases tryFormGo_some_spec h with ⟨h1, _, _, _, _, hcb, ⟨seed, hs1, hs2, hs3⟩, _⟩
    exact ⟨h1, hcb, seed, hs1, hs2, hs3⟩

/-- A concrete pool holding exactly one Slime Mold recipe in one spot. -/
def c2block (t : BlockType) : Block :=
  { x := 0, y := 0, vx := 0, vy := 0, btype := t, free := true, age := 0 }

def c2blocks : List Block :=
  [c2block NUTRIENT, c2block NUTRIENT, c2block NUTRIENT,
   c2block CARBON, c2block CARBON, c2block VEGETATION_EATER]

def c2oracle : FormOracle :=
  { gateRand := fun _ => 0, seedRand := fun _ => 0, idRand := fun _ => 0, vRand := fun _ => 0 }

theorem tryFormEntity_spec_instance :
    ∃ seed ∈ c2blocks,
      (∀ ta ∈ (recipeOf SLIME_MOLD).requires,
        ta.2 ≤ availableCount c2blocks (nearbyIndices c2blocks (some seed)) ta.1) ∧
      areBlocksCompatible ((recipeOf SLIME_MOLD).requires.map Prod.fst) = true := by
  have hgate : ¬((1 : ℚ)/2000 < c2oracle.gateRand 0) := by norm_num [c2oracle]
  have hget : c2blocks.get? 0 = some (c2block NUTRIENT) := rfl
  have hfl : (⌊c2oracle.seedRand 0 * (c2blocks.length : ℚ)⌋).toNat = 0 := by
    norm_num [c2oracle]
  have hnear : nearbyIndices c2blocks (some (c2block NUTRIENT)) = [0, 1, 2, 3, 4, 5] := by
    norm_num [nearbyIndices, c2blocks, c2block, nearBlock, List.range_succ,
      List.filter_cons, List.get?_cons_zero, List.get?_cons_succ, Bool.true_and,
      decide_eq_true_eq]
  have hFSI : formSeedIdxs c2oracle 0 c2blocks = [0, 1, 2, 3, 4, 5] := by
    rw [formSeedIdxs, hfl, hget, hnear]
  have hcf : (((recipeOf SLIME_MOLD).requires.all fun ta =>
      decide (ta.2 ≤ availableCount c2blocks [0, 1, 2, 3, 4, 5] ta.1))
        && areBlocksCompatible ((recipeOf SLIME_MOLD).requires.map Prod.fst)) = true := by
    decide
  have hsel : selectAll c2blocks [0, 1, 2, 3, 4, 5] (recipeOf SLIME_MOLD).requires
      = [2, 1, 0, 4, 3, 5] := by decide
  have hatt : formAttempt c2oracle 0 SLIME_MOLD c2blocks
      = some (some (mkEntity c2oracle 0 SLIME_MOLD (recipeOf SLIME_MOLD) c2blocks
            [2, 1, 0, 4, 3, 5]),
          removeIndices c2blocks [2, 1, 0, 4, 3, 5]) := by
    simp only [formAttempt, hFSI]
    rw [if_pos hcf, hsel]
    rw [if_neg (by decide)]
  have h : tryFormEntity c2blocks c2oracle
      = (some (mkEntity c2oracle 0 SLIME_MOLD (recipeOf SLIME_MOLD) c2blocks
            [2, 1, 0, 4, 3, 5]),
          removeIndices c2blocks [2, 1, 0, 4, 3, 5]) := by
    show tryFormGo c2oracle entityRecipeOrder 0 c2blocks = _
    rw [entityRecipeOrder]
    simp only [tryFormGo]
    rw [if_neg hgate, hatt]
  have spec := tryFormEntity_spec.2 c2blocks (removeIndices c2blocks [2, 1, 0, 4, 3, 5])
    c2oracle _ h
  exact spec.2.2

/-! ## Organism behaviour -/

/-- `canBreathe`: the consumed gas's concentration in the occupied cell
is above 10. -/
def canBreatheIn (r : Recipe) (c : GasCell) : Bool :=
  match r.consumes with
  | Gas.OXYGEN => decide (c.oxygen > 10)
  | Gas.CO2 => decide (c.co2 > 10)

/-- The two hibernation transitions, in source order: enter when starved
past half the resistance and unable to breathe; leave when breathing and
fed within 0.3 of the resistance. -/
def hibernationStep (e : Entity) (canBreathe : Bool) : Entity :=
  let e1 :=
    if decide ((e.timeSinceFed : ℚ) > e.starvationResistance * (1/2)) && !canBreathe then
      { e with hibernating := true }
    else e
  if e1.hibernating && canBreathe
      && decide ((e1.timeSinceFed : ℚ) < e1.starvationResistance * (3/10)) then
    { e1 with hibernating := false }
  else e1

/-- Gas exchange: when breathing, debit the consumed gas by twice the
effective metabolism, credit the produced gas by three times it, and
debit energy by the effective metabolism; when suffocating, debit energy
by twice the effective metabolism with no gas exchange.  No clamping
anywhere. -/
def gasExchangeStep (r : Recipe) (e : Entity) (c : GasCell) (canBreathe : Bool)
    (am : ℚ) : Entity × GasCell :=
  if canBreathe then
    let c1 := match r.consumes with
      | Gas.OXYGEN => { c with oxygen := c.oxygen - am * 2 }
      | Gas.CO2 => { c with co2 := c.co2 - am * 2 }
    let c2 := match r.produces with
      | Gas.OXYGEN => { c1 with oxygen := c1.oxygen + am * 3 }
      | Gas.CO2 => { c1 with co2 := c1.co2 + am * 3 }
    ({ e with energy := e.energy - am }, c2)
  else
    ({ e with energy := e.energy - am * 2 }, c)

/-- The `Math.random()` draws, the numeric square root, and the eight
compass direction unit vectors consumed by one organism's step; every
theorem below holds for every interpretation of these fields. -/
structure StepOracle where
  sqrtq : ℚ → ℚ
  moveRand : Nat → ℚ
  dirs : List (ℚ × ℚ)
  predJitter : Nat → ℚ
  reproRand : ℚ
  reproJitter : Nat → ℚ
  deathJitter : Nat → ℚ

/-- The prey-chasing target scan of the movement step: the position of
the closest prey-typed organism within the 120px sensing radius, scanning
forward and skipping the organism itself. -/
def findPreyTarget (r : Recipe) (ents : List Entity) (i : Nat) (e : Entity)
    (sqrtq : ℚ → ℚ) : Option (ℚ × ℚ) :=
  ((List.range ents.length).foldl (fun acc j =>
    if j = i then acc
    else match ents.get? j with
      | none => acc
      | some prey =>
          if prey.etype ∈ r.preyOn then
            let d := sqrtq ((prey.x - e.x) * (prey.x - e.x)
              + (prey.y - e.y) * (prey.y - e.y))
            match acc.2 with
            | none => if d < 120 then (some (prey.x, prey.y), some d) else acc
            | some m => if d < m ∧ d < 120 then (some (prey.x, prey.y), some d) else acc
          else acc)
    ((none, none) : Option (ℚ × ℚ) × Option ℚ)).1

/-- The gradient-seeking scan of the movement step: sample the consumed
gas one grid-cell-size away in each compass direction and keep the best
strictly-improving direction. -/
def gradientDir (g : GasGrid) (r : Recipe) (e : Entity) (c : GasCell)
    (dirs : List (ℚ × ℚ)) : Option (ℚ × ℚ) :=
  (dirs.foldl (fun acc d =>
    let ccol : Int := ⌊(e.x + d.1 * 40) / 40⌋
    let crow : Int := ⌊(e.y + d.2 * 40) / 40⌋
    if 0 ≤ crow ∧ crow < (g.rows : Int) ∧ 0 ≤ ccol ∧ ccol < (g.cols : Int) then
      let v := match r.consumes with
        | Gas.OXYGEN => (g.cell (crow.toNat, ccol.toNat)).oxygen
        | Gas.CO2 => (g.cell (crow.toNat, ccol.toNat)).co2
      if acc.2 < v then (some d, v) else acc
    else acc)
    ((none, match r.consumes with | Gas.OXYGEN => c.oxygen | Gas.CO2 => c.co2) :
      Option (ℚ × ℚ) × ℚ)).1

/-- Toroidal wrap at the world bounds, in source order. -/
def wrapPos (v bound : ℚ) : ℚ :=
  if v < 0 then bound else if v > bound then 0 else v

/-- The movement step of an Active organism: prey attraction (weight
0.2) when a target is sensed, otherwise gradient seeking (weight 0.1)
plus random jitter (amplitude 0.05); integrate into velocity scaled by
the global speed parameter, damp by 0.96, clamp the speed to the
archetype maximum, integrate the position and wrap. -/
def moveStep (o : StepOracle) (r : Recipe) (g : GasGrid) (ents : List Entity)
    (i : Nat) (e : Entity) (c : GasCell) (cssW cssH speedParam : ℚ) : Entity :=
  let target? := if r.preyOn.length ≠ 0 then findPreyTarget r ents i e o.sqrtq else none
  let fxy : ℚ × ℚ :=
    match target? with
    | some t =>
        let dx := t.1 - e.x
        let dy := t.2 - e.y
        let dist := o.sqrtq (dx * dx + dy * dy)
        if dist > 0 then ((dx / dist) * (2/10), (dy / dist) * (2/10)) else (0, 0)
    | none =>
        let base : ℚ × ℚ :=
          match gradientDir g r e c o.dirs with
          | some d => (d.1 * (1/10), d.2 * (1/10))
          | none => (0, 0)
        (base.1 + (o.moveRand 0 - 1/2) * (5/100),
         base.2 + (o.moveRand 1 - 1/2) * (5/100))
  let vx1 := (e.vx + fxy.1 * speedParam) * (96/100)
  let vy1 := (e.vy + fxy.2 * speedParam) * (96/100)
  let sp := o.sqrtq (vx1 * vx1 + vy1 * vy1)
  let maxSpeed := r.speed * speedParam
  let v2 : ℚ × ℚ :=
    if sp > maxSpeed then ((vx1 / sp) * maxSpeed, (vy1 / sp) * maxSpeed) else (vx1, vy1)
  { e with
    x := wrapPos (e.x + v2.1) cssW
    y := wrapPos (e.y + v2.2) cssH
    vx := v2.1
    vy := v2.2 }

/-- Expand a composition into the multiset of its block types. -/
def compExpand : List (BlockType × Nat) → List BlockType
  | [] => []
  | ta :: rest => List.replicate ta.2 ta.1 ++ compExpand rest

/-- `BlockPool.release`: re-emit a full composition as new free blocks
near `(px, py)` with ±5px jitter and small random velocity. -/
def releaseBlocks (jit : Nat → ℚ) (px py : ℚ) (comp : List (BlockType × Nat)) :
    List Block :=
  (compExpand comp).enum.map fun nt =>
    { x := px + (jit (4 * nt.1) - 1/2) * 10
      y := py + (jit (4 * nt.1 + 1) - 1/2) * 10
      vx := (jit (4 * nt.1 + 2) - 1/2) * (1/2)
      vy := (jit (4 * nt.1 + 3) - 1/2) * (1/2)
      btype := nt.2
      free := true
      age := 0 }

/-- The result of the predation block. -/
structure PredResult where
  ent : Entity
  entities : List Entity
  blocks : List Block
  ate : Bool
  idx : Nat

/-- Is the organism at index `j` an eligible prey in capture range of
`e`?  The capture test `dist < size + 2` is embedded squared. -/
def preyHit (r : Recipe) (e : Entity) (i : Nat) (ents : List Entity) (j : Nat) : Bool :=
  !(decide (j = i)) &&
    match ents.get? j with
    | none => false
    | some prey =>
        decide (prey.etype ∈ r.preyOn) &&
          decide ((prey.x - e.x) * (prey.x - e.x) + (prey.y - e.y) * (prey.y - e.y)
            < (r.size + 2) * (r.size + 2))

/-- The predation block: Active only; scan the registry from the last
index backward; on the first eligible prey within capture range, gain 30
energy capped at 100, reset `timeSinceFed`, release the prey's full
composition, remove the prey (decrementing the iteration index when the
removed index precedes it) and stop — at most one feeding per tick. -/
def predationStep (jit : Nat → ℚ) (r : Recipe) (ents : List Entity) (i : Nat)
    (e : Entity) (blocks : List Block) : PredResult :=
  if e.hibernating then ⟨e, ents, blocks, false, i⟩
  else
    match ((List.range ents.length).reverse).find? (preyHit r e i ents) with
    | none => ⟨e, ents, blocks, false, i⟩
    | some j =>
        match ents.get? j with
        | none => ⟨e, ents, blocks, false, i⟩
        | some prey =>
            ⟨{ e with energy := qmin 100 (e.energy + 30), timeSinceFed := 0 },
             ents.eraseIdx j,
             blocks ++ releaseBlocks jit prey.x prey.y prey.cellBlocks,
             true,
             if j < i then i - 1 else i⟩

/-- `if (!ate) entity.timeSinceFed++`. -/
def tsfStep (e : Entity) (ate : Bool) : Entity :=
  if ate then e else { e with timeSinceFed := e.timeSinceFed + 1 }

/-- Reproduction: when energy exceeds 70, fed within the last 50 ticks
and the 0.2% roll hits, spawn a child with the parent's composition
(duplicated, consuming no pool blocks), energy 60, mutated starvation
resistance and metabolism, and set the parent's energy to 50. -/
def reproStep (o : StepOracle) (e : Entity) : Entity × Option Entity :=
  if decide (e.energy > 70) && decide (e.timeSinceFed < 50)
      && decide (o.reproRand < 2/1000) then
    ({ e with energy := 50 },
     some { id := o.reproJitter 0
            etype := e.etype
            x := e.x + (o.reproJitter 1 - 1/2) * 15
            y := e.y + (o.reproJitter 2 - 1/2) * 15
            vx := (o.reproJitter 3 - 1/2) * (3/10)
            vy := (o.reproJitter 4 - 1/2) * (3/10)
            energy := 60
            age := 0
            timeSinceFed := 0
            hibernating := false
            starvationResistance := e.starvationResistance + (o.reproJitter 5 - 1/2) * 20
            metabolismRate := e.metabolismRate * (95/100 + o.reproJitter 6 * (1/10))
            cellBlocks := e.cellBlocks })
  else (e, none)

/-- The starvation death condition. -/
def deathCond (e : Entity) : Bool :=
  decide ((e.timeSinceFed : ℚ) > e.starvationResistance) && decide (e.energy ≤ 10)

/-- Spontaneous block generation (present in `src/src/Ecosim.jsx`): one
new free block of a drawn type at a drawn position with small velocity. -/
def spawnRandomBlock (draws : Nat → ℚ) (cssW cssH : ℚ) (t : BlockType) : Block :=
  { x := draws 0 * cssW
    y := draws 1 * cssH
    vx := (draws 2 - 1/2) * (2/10)
    vy := (draws 3 - 1/2) * (2/10)
    btype := t
    free := true
    age := 0 }

/-- The mutable per-tick world state. -/
structure World where
  grid : GasGrid
  blocks : List Block
  entities : List Entity

/-- One organism's full per-tick step, composing the source's loop body:
gas-cell lookup (skip everything when out of grid bounds), respiration
check, hibernation transitions, movement (Active only), gas exchange,
predation, `timeSinceFed` bookkeeping, reproduction, aging and the death
check. -/
def entityStep (o : StepOracle) (cssW cssH speedParam : ℚ) (w : World) (i : Nat) :
    World :=
  match w.entities.get? i with
  | none => w
  | some e0 =>
      let r := recipeOf e0.etype
      let col : Int := ⌊e0.x / 40⌋
      let row : Int := ⌊e0.y / 40⌋
      if 0 ≤ row ∧ row < (w.grid.rows : Int) ∧ 0 ≤ col ∧ col < (w.grid.cols : Int) then
        let cell := w.grid.cell (row.toNat, col.toNat)
        let cb := canBreatheIn r cell
        let e1 := hibernationStep e0 cb
        let am := if e1.hibernating then e1.metabolismRate * (1/10) else e1.metabolismRate
        let e2 := if e1.hibernating then e1
          else moveStep o r w.grid w.entities i e1 cell cssW cssH speedParam
        let ec := gasExchangeStep r e2 cell cb am
        let grid2 := setCell w.grid (row.toNat, col.toNat) ec.2
        let pr := predationStep o.predJitter r w.entities i ec.1 w.blocks
        let e4 := tsfStep pr.ent pr.ate
        let rc := reproStep o e4
        let e6 := { rc.1 with age := rc.1.age + 1 }
        let ents2 := (pr.entities.set pr.idx e6) ++ rc.2.toList
        if deathCond e6 then
          { grid := grid2
            blocks := pr.blocks ++ releaseBlocks o.deathJitter e6.x e6.y e6.cellBlocks
            entities := ents2.eraseIdx pr.idx }
        else { grid := grid2, blocks := pr.blocks, entities := ents2 }
      else w

/-! ## C4: hibernation hysteresis -/

/-- C4: for every organism and tick, the hibernating flag flips from
false to true only when `timeSinceFed > 0.5 * starvationResistance` and
the organism cannot breathe in its current gas cell, and flips from true
to false only when it can breathe and
`timeSinceFed < 0.3 * starvationResistance`. -/
lemma hibernationStep_enter {e : Entity} {cb : Bool}
    (hfalse : e.hibernating = false)
    (h : (hibernationStep e cb).hibernating = true) :
    (e.timeSinceFed : ℚ) > e.starvationResistance * (1/2) ∧ cb = false := by
  unfold hibernationStep at h
  split at h
  case isTrue hA =>
    refine ⟨of_decide_eq_true (Bool.and_elim_left hA), ?_⟩
    have hcb := Bool.and_elim_right hA
    cases cb
    · rfl
    · simp at hcb
  case isFalse hA => simp [hfalse] at h

lemma hibernationStep_leave {e : Entity} {cb : Bool}
    (htrue : e.hibernating = true)
    (h : (hibernationStep e cb).hibernating = false) :
    cb = true ∧ (e.timeSinceFed : ℚ) < e.starvationResistance * (3/10) := by
  unfold hibernationStep at h
  split at h
  case isTrue hA =>
    have hcb := Bool.and_elim_right hA
    cases hcbv : cb
    · rw [hcbv] at h
      simp at h
    · rw [hcbv] at hcb
      simp at hcb
  case isFalse hA =>
    by_cases hc : (cb && decide ((e.timeSinceFed : ℚ)
        < e.starvationResistance * (3/10))) = true
    · exact ⟨Bool.and_elim_left hc, of_decide_eq_true (Bool.and_elim_right hc)⟩
    · simp [htrue, hc] at h

/-- C4: for every organism and tick, the hibernating flag flips from
false to true only when `timeSinceFed > 0.5 * starvationResistance` and
the organism cannot breathe in its current gas cell, and flips from true
to false only when it can breathe and
`timeSinceFed < 0.3 * starvationResistance`. -/
theorem hibernation_hysteresis (e : Entity) (r : Recipe) (c : GasCell) :
    (e.hibernating = false →
      (hibernationStep e (canBreatheIn r c)).hibernating = true →
        ((e.timeSinceFed : ℚ) > e.starvationResistance * (1/2)
          ∧ canBreatheIn r c = false)) ∧
    (e.hibernating = true →
      (hibernationStep e (canBreatheIn r c)).hibernating = false →
        (canBreatheIn r c = true
          ∧ (e.timeSinceFed : ℚ) < e.starvationResistance * (3/10))) :=
  ⟨fun h0 h1 => hibernationStep_enter h0 h1, fun h0 h1 => hibernationStep_leave h0 h1⟩

/-- The concrete organism and cell of the C4 witness: a starved oxygen
breather in an oxygen-depleted cell. -/
def c4ent : Entity :=
  { id := 0, etype := BACTERIA, x := 0, y := 0, vx := 0, vy := 0, energy := 50
    age := 0, timeSinceFed := 100, hibernating := false
    starvationResistance := 150, metabolismRate := 1/25
    cellBlocks := (recipeOf BACTERIA).requires }

def c4cell : GasCell := { oxygen := 5, co2 := 50 }

theorem hibernation_hysteresis_instance :
    ((100 : ℚ) > (150 : ℚ) * (1/2) ∧ canBreatheIn (recipeOf BACTERIA) c4cell = false) := by
  have happ := (hibernation_hysteresis c4ent (recipeOf BACTERIA) c4cell).1 rfl
  have hstep : (hibernationStep c4ent (canBreatheIn (recipeOf BACTERIA) c4cell)).hibernating
      = true := by
    norm_num [hibernationStep, canBreatheIn, recipeOf, c4ent, c4cell]
  exact happ hstep

/-! ## C8: out-of-bounds cell lookup skips the whole step -/

/-- C8: when an organism's position maps to no gas cell, its entire
per-tick step is a no-op — the world (gas grid, block pool, organism
registry) is returned unchanged, with no hibernation transition,
movement, gas exchange, predation, reproduction, aging or death
processing, and no error is raised (the step is a total function). -/
theorem entityStep_skip_out_of_bounds (o : StepOracle) (cssW cssH speedParam : ℚ)
    (w : World) (i : Nat) (e : Entity)
    (hget : w.entities.get? i = some e)
    (hout : ¬(0 ≤ ⌊e.y / 40⌋ ∧ ⌊e.y / 40⌋ < (w.grid.rows : Int)
      ∧ 0 ≤ ⌊e.x / 40⌋ ∧ ⌊e.x / 40⌋ < (w.grid.cols : Int))) :
    entityStep o cssW cssH speedParam w i = w := by
  simp only [entityStep, hget]
  rw [if_neg hout]

def c8grid : GasGrid := { rows := 1, cols := 1, cell := fun _ => baselineCell }

/-- An organism left of the world, mapping to a negative grid column. -/
def c8ent : Entity :=
  { id := 0, etype := SLIME_MOLD, x := -50, y := 0, vx := 0, vy := 0, energy := 100
    age := 0, timeSinceFed := 0, hibernating := false
    starvationResistance := 300, metabolismRate := 1/50
    cellBlocks := (recipeOf SLIME_MOLD).requires }

def c8world : World := { grid := c8grid, blocks := [], entities := [c8ent] }

def c8oracle : StepOracle :=
  { sqrtq := fun _ => 0, moveRand := fun _ => 0, dirs := [], predJitter := fun _ => 0
    reproRand := 1, reproJitter := fun _ => 0, deathJitter := fun _ => 0 }

theorem entityStep_skip_instance :
    entityStep c8oracle 100 100 (2/5) c8world 0 = c8world := by
  have hcol : ⌊c8ent.x / 40⌋ = (-2 : Int) := by
    rw [Int.floor_eq_iff]
    constructor <;> norm_num [c8ent]
  exact entityStep_skip_out_of_bounds c8oracle 100 100 (2/5) c8world 0 c8ent rfl
    (fun h => by rw [hcol] at h; exact absurd h.2.2.1 (by norm_num))

/-! ## C9: unclamped organism gas exchange -/

def c9cell : GasCell := { oxygen := 100, co2 := 50 }

def c9ent : Entity :=
  { id := 0, etype := ALGAE, x := 0, y := 0, vx := 0, vy := 0, energy := 80
    age := 0, timeSinceFed := 0, hibernating := false
    starvationResistance := 400, metabolismRate := 3/200
    cellBlocks := (recipeOf ALGAE).requires }

/-- The grid left behind after the organism-update phase wrote an
out-of-range oxygen value. -/
def c9grid : GasGrid :=
  { rows := 1, cols := 1
    cell := fun _ => (gasExchangeStep (recipeOf ALGAE) c9ent c9cell true (3/200)).2 }

/-- C9: the organism gas-exchange step mutates the occupied cell with no
clamping — for an oxygen-producing, CO2-consuming archetype the cell's
oxygen rises by exactly `3 * metabolism` and its co2 falls by exactly
`2 * metabolism` whenever the organism can breathe — so a cell already at
oxygen 100 is pushed above 100 by the organism-update phase, and the
`[0,100]` bound is re-established by the next `diffuse`. -/
theorem gasExchange_unclamped :
    (∀ (e : Entity) (c : GasCell) (am : ℚ),
      gasExchangeStep (recipeOf ALGAE) e c (canBreatheIn (recipeOf ALGAE) c) am
        = if canBreatheIn (recipeOf ALGAE) c = true then
            ({ e with energy := e.energy - am },
             { oxygen := c.oxygen + am * 3, co2 := c.co2 - am * 2 })
          else ({ e with energy := e.energy - am * 2 }, c)) ∧
    (cellInBounds c9cell ∧
      (gasExchangeStep (recipeOf ALGAE) c9ent c9cell true (3/200)).2.oxygen > 100) ∧
    cellInBounds ((diffuse c9grid).cell (0, 0)) := by
  refine ⟨?_, ⟨?_, ?_⟩, ?_⟩
  · intro e c am
    by_cases hcb : canBreatheIn (recipeOf ALGAE) c = true
    · simp [gasExchangeStep, hcb, recipeOf]
    · simp [gasExchangeStep, hcb, recipeOf]
  · norm_num [cellInBounds, c9cell]
  · norm_num [gasExchangeStep, recipeOf, c9cell, c9ent]
  · exact sweep_mem_inBounds _ _ _
      (mem_rowMajor.mpr ⟨by norm_num [c9grid], by norm_num [c9grid]⟩)

/-! ## C3: predation -/

lemma compExpand_length (comp : List (BlockType × Nat)) :
    (compExpand comp).length = compSum comp := by
  induction comp with
  | nil => rfl
  | cons ta rest ih =>
      simp only [compExpand, List.length_append, List.length_replicate, ih, compSum,
        List.map_cons, List.sum_cons]

lemma releaseBlocks_length (jit : Nat → ℚ) (px py : ℚ) (comp : List (BlockType × Nat)) :
    (releaseBlocks jit px py comp).length = compSum comp := by
  rw [releaseBlocks, List.length_map, List.enum_length, compExpand_length]

lemma releaseBlocks_types (jit : Nat → ℚ) (px py : ℚ) (comp : List (BlockType × Nat)) :
    (releaseBlocks jit px py comp).map Block.btype = compExpand comp := by
  rw [releaseBlocks, List.map_map]
  have h : (Block.btype ∘ fun nt : Nat × BlockType =>
      ({ x := px + (jit (4 * nt.1) - 1/2) * 10
         y := py + (jit (4 * nt.1 + 1) - 1/2) * 10
         vx := (jit (4 * nt.1 + 2) - 1/2) * (1/2)
         vy := (jit (4 * nt.1 + 3) - 1/2) * (1/2)
         btype := nt.2, free := true, age := 0 } : Block)) = Prod.snd :=
    funext fun nt => rfl
  rw [h, List.enum_map_snd]

lemma releaseBlocks_free (jit : Nat → ℚ) (px py : ℚ) (comp : List (BlockType × Nat)) :
    ∀ b ∈ releaseBlocks jit px py comp, b.free = true := by
  intro b hb
  rcases List.mem_map.mp hb with ⟨nt, _, rfl⟩
  rfl

lemma preyHit_get {r : Recipe} {e : Entity} {i : Nat} {ents : List Entity} {j : Nat}
    (h : preyHit r e i ents j = true) :
    j ≠ i ∧ ∃ prey, ents.get? j = some prey ∧ prey.etype ∈ r.preyOn := by
  unfold preyHit at h
  have h1 := Bool.and_elim_left h
  have h2 := Bool.and_elim_right h
  constructor
  · intro he
    rw [he] at h1
    simp at h1
  · cases hg : ents.get? j with
    | none => rw [hg] at h2; cases h2
    | some prey =>
        rw [hg] at h2
        exact ⟨prey, rfl, of_decide_eq_true (Bool.and_elim_left h2)⟩

/-- Either the predation block is a no-op, or it fed on exactly one prey
and produced the source's post-feeding state. -/
lemma predationStep_feed_form (jit : Nat → ℚ) (r : Recipe) (ents : List Entity)
    (i : Nat) (e : Entity) (blocks : List Block) :
    predationStep jit r ents i e blocks = ⟨e, ents, blocks, false, i⟩
    ∨ ∃ j prey, ents.get? j = some prey ∧
        predationStep jit r ents i e blocks =
          ⟨{ e with energy := qmin 100 (e.energy + 30), timeSinceFed := 0 },
           ents.eraseIdx j,
           blocks ++ releaseBlocks jit prey.x prey.y prey.cellBlocks,
           true, if j < i then i - 1 else i⟩ := by
  unfold predationStep
  by_cases hh : e.hibernating = true
  · left; rw [if_pos hh]
  · rw [if_neg hh]
    split
    next => left; rfl
    next j hfind =>
      split
      next => left; rfl
      next prey hget => exact Or.inr ⟨j, prey, hget, rfl⟩

/-- C3: for every Active organism with prey types, whenever some eligible
prey lies within the capture radius, the predation block feeds exactly
once: energy becomes `min(100, energy + 30)`, `timeSinceFed` is reset to
0 (and stays 0 through the `timeSinceFed` bookkeeping of that tick), the
prey is removed from the registry, and the prey's full composition is
re-emitted as free blocks near its position; and when no feeding
occurred, the block is a no-op and `timeSinceFed` is incremented. -/
theorem predation_spec :
    (∀ (jit : Nat → ℚ) (r : Recipe) (ents : List Entity) (i : Nat) (e : Entity)
      (blocks : List Block),
      e.hibernating = false →
      (∃ j, preyHit r e i ents j = true ∧ j < ents.length) →
      ∃ j prey, ents.get? j = some prey ∧ preyHit r e i ents j = true ∧
        predationStep jit r ents i e blocks =
          ⟨{ e with energy := qmin 100 (e.energy + 30), timeSinceFed := 0 },
           ents.eraseIdx j,
           blocks ++ releaseBlocks jit prey.x prey.y prey.cellBlocks,
           true, if j < i then i - 1 else i⟩ ∧
        (ents.eraseIdx j).length + 1 = ents.length ∧
        (releaseBlocks jit prey.x prey.y prey.cellBlocks).length
          = compSum prey.cellBlocks ∧
        (releaseBlocks jit prey.x prey.y prey.cellBlocks).map Block.btype
          = compExpand prey.cellBlocks ∧
        (∀ b ∈ releaseBlocks jit prey.x prey.y prey.cellBlocks, b.free = true) ∧
        (tsfStep (predationStep jit r ents i e blocks).ent
          (predationStep jit r ents i e blocks).ate).timeSinceFed = 0) ∧
    (∀ (jit : Nat → ℚ) (r : Recipe) (ents : List Entity) (i : Nat) (e : Entity)
      (blocks : List Block),
      (predationStep jit r ents i e blocks).ate = false →
      predationStep jit r ents i e blocks = ⟨e, ents, blocks, false, i⟩ ∧
      (tsfStep (predationStep jit r ents i e blocks).ent
        (predationStep jit r ents i e blocks).ate).timeSinceFed
        = e.timeSinceFed + 1) := by
  constructor
  · intro jit r ents i e blocks hact hex
    rcases hex with ⟨j0, hpj0, hj0⟩
    have hsome : (((List.range ents.length).reverse).find? (preyHit r e i ents)).isSome :=
      List.find?_isSome.mpr
        ⟨j0, by simp [List.mem_reverse, List.mem_range, hj0], hpj0⟩
    obtain ⟨j, hfind⟩ := Option.isSome_iff_exists.mp hsome
    have hpj := List.find?_some hfind
    rcases preyHit_get hpj with ⟨hji, prey, hget, _⟩
    have heq : predationStep jit r ents i e blocks =
        ⟨{ e with energy := qmin 100 (e.energy + 30), timeSinceFed := 0 },
         ents.eraseIdx j,
         blocks ++ releaseBlocks jit prey.x prey.y prey.cellBlocks,
         true, if j < i then i - 1 else i⟩ := by
      unfold predationStep
      rw [if_neg (by simp [hact])]
      split
      next hfind2 => rw [hfind] at hfind2; cases hfind2
      next j2 hfind2 =>
        have hj : j2 = j := by
          rw [hfind] at hfind2
          exact (Option.some.inj hfind2).symm
        subst hj
        split
        next hget2 => rw [hget] at hget2; cases hget2
        next prey2 hget2 =>
          have hp : prey2 = prey := by
            rw [hget] at hget2
            exact (Option.some.inj hget2).symm
          subst hp
          rfl
    have hjlen : j < ents.length := (List.get?_eq_some.mp hget).1
    refine ⟨j, prey, hget, hpj, heq, ?_, releaseBlocks_length jit prey.x prey.y _,
      releaseBlocks_types jit prey.x prey.y _, releaseBlocks_free jit prey.x prey.y _, ?_⟩
    · rw [List.length_eraseIdx_of_lt hjlen]
      omega
    · rw [heq]
      rfl
  · intro jit r ents i e blocks hate
    rcases predationStep_feed_form jit r ents i e blocks with heq | ⟨j, prey, hget, heq⟩
    · rw [heq]
      exact ⟨rfl, rfl⟩
    · rw [heq] at hate
      cases hate

/-- Concrete predation scenario: a Predator at index 1 with a Bacteria
prey one pixel away at index 0. -/
def c3prey : Entity :=
  { id := 0, etype := BACTERIA, x := 1, y := 0, vx := 0, vy := 0, energy := 40
    age := 0, timeSinceFed := 0, hibernating := false
    starvationResistance := 200, metabolismRate := 1/25
    cellBlocks := (recipeOf BACTERIA).requires }

def c3pred : Entity :=
  { id := 1, etype := PREDATOR, x := 0, y := 0, vx := 0, vy := 0, energy := 50
    age := 0, timeSinceFed := 3, hibernating := false
    starvationResistance := 180, metabolismRate := 2/25
    cellBlocks := (recipeOf PREDATOR).requires }

def c3ents : List Entity := [c3prey, c3pred]

def c3jit : Nat → ℚ := fun _ => 0

theorem predation_spec_instance :
    ∃ j prey, c3ents.get? j = some prey ∧
      preyHit (recipeOf PREDATOR) c3pred 1 c3ents j = true ∧
      predationStep c3jit (recipeOf PREDATOR) c3ents 1 c3pred [] =
        ⟨{ c3pred with energy := qmin 100 (c3pred.energy + 30), timeSinceFed := 0 },
         c3ents.eraseIdx j,
         [] ++ releaseBlocks c3jit prey.x prey.y prey.cellBlocks,
         true, if j < 1 then 1 - 1 else 1⟩ ∧
      (c3ents.eraseIdx j).length + 1 = c3ents.length ∧
      (releaseBlocks c3jit prey.x prey.y prey.cellBlocks).length
        = compSum prey.cellBlocks ∧
      (releaseBlocks c3jit prey.x prey.y prey.cellBlocks).map Block.btype
        = compExpand prey.cellBlocks ∧
      (∀ b ∈ releaseBlocks c3jit prey.x prey.y prey.cellBlocks, b.free = true) ∧
      (tsfStep (predationStep c3jit (recipeOf PREDATOR) c3ents 1 c3pred []).ent
        (predationStep c3jit (recipeOf PREDATOR) c3ents 1 c3pred []).ate).timeSinceFed
        = 0 := by
  have hhit : preyHit (recipeOf PREDATOR) c3pred 1 c3ents 0 = true := by
    norm_num [preyHit, c3ents, c3prey, c3pred, recipeOf, List.get?_cons_zero,
      decide_eq_true_eq]
  exact predation_spec.1 c3jit (recipeOf PREDATOR) c3ents 1 c3pred [] rfl
    ⟨0, hhit, by norm_num [c3ents]⟩

/-! ## C5: energy bounds -/

/-- Either the reproduction roll failed and nothing changed, or a child
spawned: parent's energy set to 50, child's to 60, the parent's
composition duplicated into the child. -/
lemma reproStep_cases (o : StepOracle) (e : Entity) :
    reproStep o e = (e, none)
    ∨ ∃ ch, reproStep o e = ({ e with energy := 50 }, some ch)
        ∧ ch.cellBlocks = e.cellBlocks ∧ ch.energy = 60 := by
  unfold reproStep
  by_cases hc : (decide (e.energy > 70) && decide (e.timeSinceFed < 50)
      && decide (o.reproRand < 2/1000)) = true
  · right
    rw [if_pos hc]
    exact ⟨_, rfl, rfl, rfl⟩
  · left
    rw [if_neg hc]

lemma predationStep_energy (jit : Nat → ℚ) (r : Recipe) (ents : List Entity)
    (i : Nat) (e : Entity) (blocks : List Block) :
    (predationStep jit r ents i e blocks).ent.energy = e.energy
    ∨ (predationStep jit r ents i e blocks).ent.energy = qmin 100 (e.energy + 30) := by
  rcases predationStep_feed_form jit r ents i e blocks with heq | ⟨j, prey, _, heq⟩
  · left; rw [heq]
  · right; rw [heq]

/-- C5 (amended): energy never exceeds 100 — the metabolic and
suffocation debits only decrease it, feeding clamps at 100, reproduction
sets the parent to 50 and the child to 60, and formation starts at 100 —
but there is no lower clamp (see the counterexample below). -/
theorem energy_upper_bound :
    (∀ (r : Recipe) (e : Entity) (c : GasCell) (cb : Bool) (am : ℚ),
      0 ≤ am → e.energy ≤ 100 → (gasExchangeStep r e c cb am).1.energy ≤ 100) ∧
    (∀ (jit : Nat → ℚ) (r : Recipe) (ents : List Entity) (i : Nat) (e : Entity)
      (blocks : List Block),
      e.energy ≤ 100 → (predationStep jit r ents i e blocks).ent.energy ≤ 100) ∧
    (∀ (o : StepOracle) (e : Entity),
      ((reproStep o e).1.energy = 50 ∨ (reproStep o e).1.energy = e.energy) ∧
      ∀ ch, (reproStep o e).2 = some ch → ch.energy = 60) ∧
    (∀ (o : FormOracle) (k : Nat) (et : EntityType) (r : Recipe)
      (blocks : List Block) (toRemove : List Nat),
      (mkEntity o k et r blocks toRemove).energy = 100) := by
  refine ⟨?_, ?_, ?_, ?_⟩
  · intro r e c cb am ham he
    unfold gasExchangeStep
    by_cases hcb : cb = true
    · rw [if_pos hcb]
      show e.energy - am ≤ 100
      linarith
    · rw [if_neg hcb]
      show e.energy - am * 2 ≤ 100
      linarith
  · intro jit r ents i e blocks he
    rcases predationStep_energy jit r ents i e blocks with heq | heq
    · rw [heq]; exact he
    · rw [heq, qmin_eq_min]
      exact min_le_left _ _
  · intro o e
    rcases reproStep_cases o e with heq | ⟨ch, heq, _, hce⟩
    · rw [heq]
      exact ⟨Or.inr rfl, fun ch2 hch => by cases hch⟩
    · rw [heq]
      exact ⟨Or.inl rfl, fun ch2 hch => by cases Option.some.inj hch; exact hce⟩
  · intro o k et r blocks toRemove
    rfl

theorem energy_upper_bound_instance :
    (0 : ℚ) ≤ 1/25 ∧ c3pred.energy ≤ 100 ∧
      (gasExchangeStep (recipeOf BACTERIA) c3pred c4cell false (1/25)).1.energy ≤ 100 :=
  ⟨by norm_num, by norm_num [c3pred],
    energy_upper_bound.1 (recipeOf BACTERIA) c3pred c4cell false (1/25)
      (by norm_num) (by norm_num [c3pred])⟩

/-- An organism whose energy, while within `[0,100]`, is smaller than its
per-tick suffocation debit. -/
def c5ent : Entity :=
  { id := 0, etype := BACTERIA, x := 0, y := 0, vx := 0, vy := 0, energy := 1/100
    age := 0, timeSinceFed := 20, hibernating := false
    starvationResistance := 200, metabolismRate := 1/25
    cellBlocks := (recipeOf BACTERIA).requires }

/-- C5 counterexample: the energy debit of the gas-exchange step has no
lower clamp — an organism with in-range energy 0.01 in an
oxygen-depleted cell ends the step with negative energy. -/
theorem energy_debit_below_zero :
    ((0 : ℚ) ≤ c5ent.energy ∧ c5ent.energy ≤ 100) ∧
    (gasExchangeStep (recipeOf BACTERIA) c5ent c4cell
        (canBreatheIn (recipeOf BACTERIA) c4cell)
        (if c5ent.hibernating then c5ent.metabolismRate * (1/10)
          else c5ent.metabolismRate)).1.energy < 0 := by
  constructor
  · constructor <;> norm_num [c5ent]
  · norm_num [gasExchangeStep, canBreatheIn, recipeOf, c5ent, c4cell]

/-! ## C1: block-mass accounting -/

/-- Total number of blocks embedded in living organisms. -/
def embeddedSum (ents : List Entity) : Nat :=
  (ents.map fun e => compSum e.cellBlocks).sum

/-- The conserved quantity of the claim: free blocks plus embedded
blocks. -/
def totalMass (blocks : List Block) (ents : List Entity) : Nat :=
  freeCount blocks + embeddedSum ents

lemma freeCount_append (a b : List Block) :
    freeCount (a ++ b) = freeCount a + freeCount b := by
  simp [freeCount, List.filter_append]

lemma freeCount_releaseBlocks (jit : Nat → ℚ) (px py : ℚ)
    (comp : List (BlockType × Nat)) :
    freeCount (releaseBlocks jit px py comp) = compSum comp := by
  have hf := List.filter_eq_self.mpr (releaseBlocks_free jit px py comp)
  rw [freeCount, hf, releaseBlocks_length]

lemma embeddedSum_append (a b : List Entity) :
    embeddedSum (a ++ b) = embeddedSum a + embeddedSum b := by
  simp [embeddedSum]

lemma embeddedSum_eraseIdx (ents : List Entity) (i : Nat) :
    embeddedSum ents = embeddedSum (ents.eraseIdx i)
      + (match ents.get? i with | some e => compSum e.cellBlocks | none => 0) := by
  induction ents generalizing i with
  | nil => cases i <;> rfl
  | cons e rest ih =>
      cases i with
      | zero =>
          show embeddedSum (e :: rest) = embeddedSum rest + compSum e.cellBlocks
          simp [embeddedSum, Nat.add_comm]
      | succ n =>
          show embeddedSum (e :: rest)
            = embeddedSum (e :: rest.eraseIdx n)
              + (match rest.get? n with | some e2 => compSum e2.cellBlocks | none => 0)
          simp only [embeddedSum, List.map_cons, List.sum_cons]
          have h2 := ih n
          simp only [embeddedSum] at h2
          omega

lemma formAttempt_some_none {o : FormOracle} {k : Nat} {et : EntityType}
    {blocks blocks2 : List Block}
    (h : formAttempt o k et blocks = some (none, blocks2)) : blocks2 = blocks := by
  simp only [formAttempt] at h
  split at h
  case isTrue hcf =>
    split at h
    case isTrue hz =>
      rw [Option.some.injEq, Prod.mk.injEq] at h
      exact h.2.symm
    case isFalse hz => simp at h
  case isFalse hcf => cases h

lemma tryFormGo_none {o : FormOracle} {ets : List EntityType} {k : Nat}
    {blocks blocks2 : List Block}
    (h : tryFormGo o ets k blocks = (none, blocks2)) : blocks2 = blocks := by
  induction ets generalizing k with
  | nil =>
      simp only [tryFormGo, Prod.mk.injEq] at h
      exact h.2.symm
  | cons et rest ih =>
      simp only [tryFormGo] at h
      by_cases hg : (1 : ℚ)/2000 < o.gateRand k
      · rw [if_pos hg] at h
        exact ih h
      · rw [if_neg hg] at h
        cases hatt : formAttempt o k et blocks with
        | none =>
            rw [hatt] at h
            exact ih h
        | some res =>
            rw [hatt] at h
            have h2 : res = (none, blocks2) := h
            rw [h2] at hatt
            exact formAttempt_some_none hatt

/-- C1 (amended): the conserved quantity `freeCount + embeddedSum` is
untouched by the movement and gas-exchange steps (neither changes any
composition nor the pool); formation converts exactly the recipe's block
budget from free to embedded; predation and death convert an organism's
full composition from embedded back to free; spontaneous generation adds
one free block; but reproduction duplicates the parent's composition
without consuming any free blocks, increasing the embedded total by the
parent's composition size. -/
theorem blockMass_accounting :
    (∀ (o : StepOracle) (r : Recipe) (g : GasGrid) (ents : List Entity) (i : Nat)
      (e : Entity) (c : GasCell) (cssW cssH speedParam : ℚ),
      (moveStep o r g ents i e c cssW cssH speedParam).cellBlocks = e.cellBlocks) ∧
    (∀ (r : Recipe) (e : Entity) (c : GasCell) (cb : Bool) (am : ℚ),
      (gasExchangeStep r e c cb am).1.cellBlocks = e.cellBlocks) ∧
    (∀ (o : StepOracle) (e : Entity) (ents : List Entity),
      embeddedSum (ents ++ (reproStep o e).2.toList)
        = embeddedSum ents
          + (match (reproStep o e).2 with
              | some _ => compSum e.cellBlocks
              | none => 0)) ∧
    (∀ (o : StepOracle) (e : Entity), (reproStep o e).1.cellBlocks = e.cellBlocks) ∧
    (∀ (blocks : List Block) (o : FormOracle),
      freeCount (tryFormEntity blocks o).2
          + (match (tryFormEntity blocks o).1 with
              | some ent => compSum ent.cellBlocks
              | none => 0)
        = freeCount blocks) ∧
    (∀ (jit : Nat → ℚ) (r : Recipe) (ents : List Entity) (i : Nat) (e : Entity)
      (blocks : List Block),
      freeCount (predationStep jit r ents i e blocks).blocks
          + embeddedSum (predationStep jit r ents i e blocks).entities
        = freeCount blocks + embeddedSum ents) ∧
    (∀ (jit : Nat → ℚ) (x y : ℚ) (comp : List (BlockType × Nat)) (blocks : List Block),
      freeCount (blocks ++ releaseBlocks jit x y comp)
        = freeCount blocks + compSum comp) ∧
    (∀ (ents : List Entity) (i : Nat),
      embeddedSum ents = embeddedSum (ents.eraseIdx i)
        + (match ents.get? i with | some e => compSum e.cellBlocks | none => 0)) ∧
    (∀ (draws : Nat → ℚ) (cssW cssH : ℚ) (t : BlockType) (blocks : List Block),
      freeCount (blocks ++ [spawnRandomBlock draws cssW cssH t])
        = freeCount blocks + 1) := by
  refine ⟨?_, ?_, ?_, ?_, ?_, ?_, ?_, ?_, ?_⟩
  · intro o r g ents i e c cssW cssH speedParam
    rfl
  · intro r e c cb am
    unfold gasExchangeStep
    split <;> rfl
  · intro o e ents
    rcases reproStep_cases o e with heq | ⟨ch, heq, hcb, _⟩
    · rw [heq]
      simp
    · rw [heq]
      simp [embeddedSum_append, embeddedSum, hcb]
  · intro o e
    unfold reproStep
    split <;> rfl
  · intro blocks o
    cases hres : tryFormEntity blocks o with
    | mk fst snd =>
        cases fst with
        | none =>
            have hsnd : snd = blocks := tryFormGo_none hres
            rw [hsnd]
            rfl
        | some ent =>
            rcases tryFormGo_some_spec hres with ⟨_, _, _, _, _, hcb, _, hmass⟩
            show freeCount snd + compSum ent.cellBlocks = freeCount blocks
            rw [hcb]
            omega
  · intro jit r ents i e blocks
    rcases predationStep_feed_form jit r ents i e blocks with heq | ⟨j, prey, hget, heq⟩
    · rw [heq]
    · rw [heq]
      show freeCount (blocks ++ releaseBlocks jit prey.x prey.y prey.cellBlocks)
        + embeddedSum (ents.eraseIdx j) = freeCount blocks + embeddedSum ents
      rw [freeCount_append, freeCount_releaseBlocks]
      have h3 : embeddedSum ents = embeddedSum (ents.eraseIdx j) + compSum prey.cellBlocks := by
        rw [embeddedSum_eraseIdx ents j, hget]
      omega
  · intro jit x y comp blocks
    rw [freeCount_append, freeCount_releaseBlocks]
  · exact embeddedSum_eraseIdx
  · intro draws cssW cssH t blocks
    rw [freeCount_append]
    rfl

/-- A healthy, recently fed organism for the reproduction counterexample. -/
def c1ent : Entity :=
  { id := 0, etype := BACTERIA, x := 0, y := 0, vx := 0, vy := 0, energy := 80
    age := 5, timeSinceFed := 10, hibernating := false
    starvationResistance := 200, metabolismRate := 1/25
    cellBlocks := (recipeOf BACTERIA).requires }

def c1oracle : StepOracle :=
  { sqrtq := fun _ => 0, moveRand := fun _ => 0, dirs := [], predJitter := fun _ => 0
    reproRand := 1/1000, reproJitter := fun _ => 0, deathJitter := fun _ => 0 }

/-- C1 counterexample: the reproduction step does change the conserved
quantity — after a successful reproduction roll the free count is
unchanged but the embedded total has grown by the parent's composition
size, so `freeCount + embeddedSum` is not invariant under the
reproduction step of the tick. -/
theorem reproduction_changes_blockMass :
    totalMass [] ([(reproStep c1oracle c1ent).1] ++ (reproStep c1oracle c1ent).2.toList)
      ≠ totalMass [] [c1ent] := by
  have hcond : (decide (c1ent.energy > 70) && decide (c1ent.timeSinceFed < 50)
      && decide (c1oracle.reproRand < 2/1000)) = true := by
    norm_num [c1ent, c1oracle]
  have h2 : (reproStep c1oracle c1ent).2.isSome := by
    rw [reproStep, if_pos hcond]
    rfl
  rcases reproStep_cases c1oracle c1ent with heq | ⟨ch, heq, hcb, _⟩
  · rw [heq] at h2
    simp at h2
  · rw [heq]
    have h5 : compSum c1ent.cellBlocks = 5 := rfl
    have h5c : compSum ch.cellBlocks = 5 := by rw [hcb]; rfl
    simp [totalMass, embeddedSum, freeCount, h5, h5c]
